import Mathlib

/-!
# Verification of the Django-Helpers credit ledger

Shallow embedding of the credit-ledger code in `src/helpers.py`
(app `credit_tracker`), `src/helpers1.py` (app `credit_system`) and
`src/helpers3.py` (app `credit_tracker` with posts and boosting).

Monetary amounts are `DecimalField(max_digits=10, decimal_places=2)` in the
source; additions, subtractions and comparisons on such decimals are exact,
so we embed them as integers counted in cents (`50.00` becomes `5000`).
Users, content types and object ids are embedded as naturals; timestamps
(`date = DateTimeField(auto_now_add=True)`) as naturals supplied by the
caller of each operation.

The three Django model classes become record types.  The `CreditUsage`
type carries the generic-reference fields (`content_type`, `object_id`)
of the `credit_system` variant; the `credit_tracker` variant, whose
`CreditUsage` model lacks them, always stores `none` there.

Database tables become lists of rows in insertion order; a `LedgerState`
bundles the three ledger tables together with the `Post` table of
`helpers3.py`.  `Model.objects.create` is an append,
`QuerySet.filter(user=u)` is `List.filter`, `get_or_create` looks the row
up and appends a fresh one when absent (this append is a committed write,
faithfully kept), and `instance.save()` on a balance row writes the row
back by user key.
-/

/-- Row of the `CreditPurchase` model: `user`, `amount` (cents), `date`. -/
structure CreditPurchase where
  user : Nat
  amount : Int
  date : Nat
deriving DecidableEq

/-- Row of the `CreditUsage` model: `user`, `amount` (cents), `date`,
`description`, and the generic reference `content_type` / `object_id` of
the `credit_system` variant (`none` for rows created by `credit_tracker`,
whose model has no such fields). -/
structure CreditUsage where
  user : Nat
  amount : Int
  date : Nat
  description : String
  content_type : Option Nat
  object_id : Option Nat
deriving DecidableEq

/-- Row of the `CreditBalance` model: one row per user (`OneToOneField`),
`balance` in cents, default `0`. -/
structure CreditBalance where
  user : Nat
  balance : Int
deriving DecidableEq

/-- Row of the `Post` model of `helpers3.py`: primary key `id`, owner,
`content`, `is_boosted` (default `false`), `created_at`. -/
structure Post where
  id : Nat
  user : Nat
  content : String
  is_boosted : Bool
  created_at : Nat
deriving DecidableEq

/-- The committed database state: the three ledger tables plus the post
table, each in insertion order. -/
structure LedgerState where
  purchases : List CreditPurchase
  usages : List CreditUsage
  balances : List CreditBalance
  posts : List Post
deriving DecidableEq

/-- Lookup of a user's `CreditBalance` row (the `OneToOneField` makes it
unique): first row of the table keyed by `u`, if any. -/
def bfind : List CreditBalance → Nat → Option CreditBalance
  | [], _ => none
  | r :: rs, u => if r.user = u then some r else bfind rs u

/-- The committed balance value of user `u`: the row's `balance`, or `0`
when the row does not exist yet (the model default). -/
def bvalue (bs : List CreditBalance) (u : Nat) : Int :=
  match bfind bs u with
  | some b => b.balance
  | none => 0

/-- `CreditBalance.objects.get_or_create(user=u)`: return the existing row,
or create (append) a fresh row with the default balance `0`.  Returns the
row together with the table after the call. -/
def getOrCreateBalance (bs : List CreditBalance) (u : Nat) :
    CreditBalance × List CreditBalance :=
  match bfind bs u with
  | some b => (b, bs)
  | none => (⟨u, 0⟩, bs ++ [⟨u, 0⟩])

/-- `balance.save()`: write the row back into the table, replacing the
row keyed by the same user. -/
def saveBalance : List CreditBalance → CreditBalance → List CreditBalance
  | [], _ => []
  | r :: rs, b => (if r.user = b.user then b else r) :: saveBalance rs b

/-- Cached balance of user `u` in state `s`. -/
def balanceOf (s : LedgerState) (u : Nat) : Int :=
  bvalue s.balances u

/-- Sum of the `amount` column over the rows of a purchase table belonging
to user `u`:
`sum(purchase.amount for purchase in CreditPurchase.objects.filter(user=u))`. -/
def purchasedSum (ps : List CreditPurchase) (u : Nat) : Int :=
  ((ps.filter (fun p => p.user == u)).map (fun p => p.amount)).sum

/-- Sum of the `amount` column over the rows of a usage table belonging to
user `u`. -/
def usedSum (us : List CreditUsage) (u : Nat) : Int :=
  ((us.filter (fun r => r.user == u)).map (fun r => r.amount)).sum

/-- Sum of the user's purchases in state `s`. -/
def userPurchased (s : LedgerState) (u : Nat) : Int :=
  purchasedSum s.purchases u

/-- Sum of the user's usages in state `s`. -/
def userUsed (s : LedgerState) (u : Nat) : Int :=
  usedSum s.usages u

/-- The spec's ledger invariant at a committed state: every user's cached
balance equals the sum of their purchases minus the sum of their usages. -/
def consistent (s : LedgerState) : Prop :=
  ∀ u : Nat, balanceOf s u = userPurchased s u - userUsed s u

/-- `use_credit(request, amount)` of `helpers.py` (app `credit_tracker`),
run for user `u` at time `now`, from committed state `s`:
`get_or_create` the balance row; if `balance.balance >= amount`, decrement
the balance, save it, and create a `CreditUsage` row with description
`"Credit usage"`; otherwise only warn.  The whole view runs under
`@transaction.atomic` and both branches return a redirect, so the
transaction commits in both branches (including a balance row that
`get_or_create` may have inserted).  Returns the committed state and
whether the spend succeeded. -/
def use_credit (s : LedgerState) (u : Nat) (amount : Int) (now : Nat) :
    LedgerState × Bool :=
  let gb := getOrCreateBalance s.balances u
  if amount ≤ gb.1.balance then
    ({ s with
        balances := saveBalance gb.2 ⟨u, gb.1.balance - amount⟩,
        usages := s.usages ++ [CreditUsage.mk u amount now "Credit usage" none none] },
      true)
  else
    ({ s with balances := gb.2 }, false)

/-- `purchase_credit(request)` of `helpers.py` on the POST path, for user
`u` with posted `amount` at time `now`: create a `CreditPurchase` row,
`get_or_create` the balance row, add `amount` to it and save.  There is no
validation of the posted amount in the view. -/
def purchase_credit (s : LedgerState) (u : Nat) (amount : Int) (now : Nat) :
    LedgerState :=
  let s1 := { s with purchases := s.purchases ++ [CreditPurchase.mk u amount now] }
  let gb := getOrCreateBalance s1.balances u
  { s1 with balances := saveBalance gb.2 ⟨u, gb.1.balance + amount⟩ }

/-- Summary context built by `credit_summary(request)` (identical in
`helpers.py` and `helpers3.py`). -/
structure SummaryContext where
  total_purchased : Int
  total_used : Int
  current_balance : Int
  recent_purchases : List CreditPurchase
  recent_usages : List CreditUsage
deriving DecidableEq

/-- Insert into a list kept in descending `key` order. -/
def insertDesc {α : Type} (key : α → Nat) (x : α) : List α → List α
  | [] => [x]
  | y :: ys => if key y ≤ key x then x :: y :: ys else y :: insertDesc key x ys

/-- `QuerySet.order_by` on a descending key (`order_by('-date')`):
insertion sort into descending order. -/
def sortDesc {α : Type} (key : α → Nat) : List α → List α
  | [] => []
  | x :: xs => insertDesc key x (sortDesc key xs)

/-- `credit_summary(request)` of `helpers.py` / `helpers3.py` for user `u`:
filter both logs by user, `get_or_create` the balance row, and render
totals, the current balance, and the five most recent rows of each log
ordered by `-date`.  Returns the rendered context together with the
committed state after the call (`get_or_create` may have inserted the
balance row). -/
def credit_summary (s : LedgerState) (u : Nat) :
    SummaryContext × LedgerState :=
  let purchases := s.purchases.filter (fun p => p.user == u)
  let usages := s.usages.filter (fun r => r.user == u)
  let gb := getOrCreateBalance s.balances u
  ({ total_purchased := (purchases.map (fun p => p.amount)).sum,
     total_used := (usages.map (fun r => r.amount)).sum,
     current_balance := gb.1.balance,
     recent_purchases := (sortDesc (fun p => p.date) purchases).take 5,
     recent_usages := (sortDesc (fun r => r.date) usages).take 5 },
   { s with balances := gb.2 })

/-- `check_credit_balance(user, amount)` of `helpers1.py` (app
`credit_system`): `get_or_create` the balance row and compare.  Returns
the boolean together with the balance table after the call. -/
def check_credit_balance (bs : List CreditBalance) (u : Nat) (amount : Int) :
    Bool × List CreditBalance :=
  let gb := getOrCreateBalance bs u
  (amount ≤ gb.1.balance, gb.2)

/-- `use_credits(user, amount, description, content_object)` of
`helpers1.py`, run for user `u` at time `now`, the content object given by
its content type `ck` and primary key `oid`: under `@transaction.atomic`,
check the balance via `check_credit_balance`; on success, re-fetch the
balance row with `CreditBalance.objects.get(user=user)`, decrement and
save it, and create a `CreditUsage` row storing the description and the
generic reference (`content_type`, `object_id`).  The content object
itself is neither read nor written.  The `none` arm of the re-fetch models
`DoesNotExist`, which would abort the atomic block and roll back; it is
unreachable because `check_credit_balance` has just created the row. -/
def use_credits (s : LedgerState) (u : Nat) (amount : Int)
    (description : String) (ck oid : Nat) (now : Nat) : LedgerState × Bool :=
  let c := check_credit_balance s.balances u amount
  if c.1 then
    match bfind c.2 u with
    | some b =>
      ({ s with
          balances := saveBalance c.2 ⟨u, b.balance - amount⟩,
          usages := s.usages ++
            [CreditUsage.mk u amount now description (some ck) (some oid)] },
        true)
    | none => (s, false)
  else
    ({ s with balances := c.2 }, false)

/-- `BOOST_COST = Decimal('1.00')` of `helpers3.py`, in cents. -/
def BOOST_COST : Int := 100

/-- `CREDIT_PURCHASE_AMOUNT = Decimal('50.00')` of `helpers1.py` /
`helpers3.py`, in cents. -/
def CREDIT_PURCHASE_AMOUNT : Int := 5000

/-- `boost_post(request, post_id)` of `helpers3.py`, run for user `u` at
time `now`: `get_object_or_404(Post, id=post_id, user=request.user)` (the
`none` result models the 404 abort); `get_or_create` the balance row; if
`balance.balance >= BOOST_COST`, decrement and save the balance, set the
post's `is_boosted` to `True` and save it, and create a `CreditUsage` row
for `BOOST_COST` whose description interpolates the post id; otherwise
only warn.  Both branches redirect, so the transaction commits in both.
There is no check of the post's current `is_boosted` value.  Returns the
committed state and whether the boost succeeded. -/
def boost_post (s : LedgerState) (u : Nat) (post_id : Nat) (now : Nat) :
    Option (LedgerState × Bool) :=
  match s.posts.find? (fun p => p.id == post_id && p.user == u) with
  | none => none
  | some post =>
    let gb := getOrCreateBalance s.balances u
    if BOOST_COST ≤ gb.1.balance then
      some ({ s with
          balances := saveBalance gb.2 ⟨u, gb.1.balance - BOOST_COST⟩,
          posts := s.posts.map (fun p =>
            if p.id = post.id then { p with is_boosted := true } else p),
          usages := s.usages ++ [CreditUsage.mk u BOOST_COST now
            ("Boost post (ID: " ++ toString post.id ++ ")") none none] },
        true)
    else
      some ({ s with balances := gb.2 }, false)

/-- A ledger operation of `helpers.py`: a credit purchase or a spend. -/
inductive LedgerOp where
  | purchase (u : Nat) (amount : Int) (now : Nat)
  | spend (u : Nat) (amount : Int) (now : Nat)

/-- Apply one ledger operation (the committed state it leaves behind). -/
def applyOp (s : LedgerState) : LedgerOp → LedgerState
  | .purchase u amount now => purchase_credit s u amount now
  | .spend u amount now => (use_credit s u amount now).1

/-- Run a sequence of ledger operations from a committed state. -/
def runOps (s : LedgerState) : List LedgerOp → LedgerState
  | [] => s
  | op :: ops => runOps (applyOp s op) ops

/-- Two `use_credit` transactions for the same user interleaved so that
both read the balance before either commits.  `use_credit` takes no row
lock (`get_or_create` issues a plain `SELECT`, not `SELECT ... FOR
UPDATE`) and `@transaction.atomic` does not by itself serialize the two
read-check-write sequences under the default isolation level, so this
schedule is allowed for two concurrent requests: each transaction's
`get_or_create` reads the committed balance of `s`, then the first
transaction commits its check-and-write, then the second commits its
check-and-write against its stale read.  Each transaction's own steps are
those of `use_credit`.  Returns the final committed state and the two
success flags. -/
def use_credit_racy_pair (s : LedgerState) (u : Nat) (a1 a2 : Int)
    (n1 n2 : Nat) : LedgerState × Bool × Bool :=
  let gb1 := getOrCreateBalance s.balances u
  let gb2 := getOrCreateBalance s.balances u
  let r1 :=
    if a1 ≤ gb1.1.balance then
      ({ s with
          balances := saveBalance gb1.2 ⟨u, gb1.1.balance - a1⟩,
          usages := s.usages ++ [CreditUsage.mk u a1 n1 "Credit usage" none none] },
        true)
    else ({ s with balances := gb1.2 }, false)
  let r2 :=
    if a2 ≤ gb2.1.balance then
      ({ r1.1 with
          balances := saveBalance r1.1.balances ⟨u, gb2.1.balance - a2⟩,
          usages := r1.1.usages ++ [CreditUsage.mk u a2 n2 "Credit usage" none none] },
        true)
    else (r1.1, false)
  (r2.1, r1.2, r2.2)

/-! ## Concrete states used by counterexamples and witnesses -/

/-- The empty database. -/
def emptyState : LedgerState := ⟨[], [], [], []⟩

/-- A committed, consistent state: user 1 bought `1.00` of credit (one
purchase row, cached balance `1.00`), no usages, no posts. -/
def oneCreditState : LedgerState :=
  ⟨[⟨1, 100, 0⟩], [], [⟨1, 100⟩], []⟩

/-- A committed, consistent state: user 1 bought `50.00` of credit, no
usages; one post with id 7 owned by user 1, already boosted. -/
def fiftyCreditState : LedgerState :=
  ⟨[⟨1, 5000, 0⟩], [], [⟨1, 5000⟩], [⟨7, 1, "hello", true, 0⟩]⟩

/-! ## Balance-table lemmas -/

/-- A found balance row is keyed by the user it was looked up with. -/
theorem bfind_user (bs : List CreditBalance) (u : Nat) (b : CreditBalance)
    (h : bfind bs u = some b) : b.user = u := by
  induction bs with
  | nil => simp [bfind] at h
  | cons r rs ih =>
    by_cases hr : r.user = u
    · simp [bfind, hr] at h
      rw [← h]; exact hr
    · simp [bfind, hr] at h
      exact ih h

/-- Appending rows after a table in which the user has no row does not
change lookups for preceding rows. -/
theorem bfind_append_of_none (bs l : List CreditBalance) (u : Nat)
    (h : bfind bs u = none) : bfind (bs ++ l) u = bfind l u := by
  induction bs with
  | nil => rfl
  | cons r rs ih =>
    by_cases hr : r.user = u
    · simp [bfind, hr] at h
    · simp [bfind, hr] at h ⊢
      exact ih h

/-- The row returned by `get_or_create` is keyed by the user. -/
theorem getOrCreate_fst_user (bs : List CreditBalance) (u : Nat) :
    (getOrCreateBalance bs u).1.user = u := by
  unfold getOrCreateBalance
  cases h : bfind bs u with
  | none => rfl
  | some b => exact bfind_user bs u b h

/-- The row returned by `get_or_create` carries the committed balance
value (`0` when the row is freshly created). -/
theorem getOrCreate_fst_balance (bs : List CreditBalance) (u : Nat) :
    (getOrCreateBalance bs u).1.balance = bvalue bs u := by
  unfold getOrCreateBalance bvalue
  cases h : bfind bs u <;> rfl

/-- After `get_or_create`, looking the user up finds exactly the returned
row. -/
theorem bfind_getOrCreate_self (bs : List CreditBalance) (u : Nat) :
    bfind (getOrCreateBalance bs u).2 u = some (getOrCreateBalance bs u).1 := by
  unfold getOrCreateBalance
  cases h : bfind bs u with
  | none =>
    simp only
    rw [bfind_append_of_none bs _ u h]
    simp [bfind]
  | some b => exact h

/-- `get_or_create` for one user does not change other users' rows. -/
theorem bfind_getOrCreate_other (bs : List CreditBalance) (u u' : Nat)
    (h : u' ≠ u) : bfind (getOrCreateBalance bs u).2 u' = bfind bs u' := by
  unfold getOrCreateBalance
  cases hb : bfind bs u with
  | some b => rfl
  | none =>
    simp only
    induction bs with
    | nil => simp [bfind, Ne.symm h]
    | cons r rs ih =>
      by_cases hr : r.user = u
      · simp [bfind, hr] at hb
      · simp [bfind, hr] at hb
        by_cases hr' : r.user = u'
        · simp [bfind, hr']
        · simp [bfind, hr']
          exact ih hb

/-- Saving a row for user `u` overwrites exactly the user's row, when it
exists. -/
theorem bfind_save_self (bs : List CreditBalance) (u : Nat) (v : Int)
    (h : (bfind bs u).isSome) :
    bfind (saveBalance bs ⟨u, v⟩) u = some ⟨u, v⟩ := by
  induction bs with
  | nil => simp [bfind] at h
  | cons r rs ih =>
    by_cases hr : r.user = u
    · simp [saveBalance, hr, bfind]
    · simp [bfind, hr] at h
      simp [saveBalance, hr, bfind]
      exact ih h

/-- Saving a row for user `u` does not change other users' rows. -/
theorem bfind_save_other (bs : List CreditBalance) (u u' : Nat) (v : Int)
    (h : u' ≠ u) : bfind (saveBalance bs ⟨u, v⟩) u' = bfind bs u' := by
  induction bs with
  | nil => rfl
  | cons r rs ih =>
    by_cases hr : r.user = u
    · have h1 : r.user ≠ u' := by rw [hr]; exact Ne.symm h
      simp [saveBalance, hr, bfind, h1, Ne.symm h]
      exact ih
    · by_cases hr' : r.user = u'
      · simp [saveBalance, hr, bfind, hr', h]
      · simp [saveBalance, hr, bfind, hr']
        exact ih

/-- The committed balance value after the `get_or_create`-then-`save`
pattern of the views: the saved value for the user themselves. -/
theorem bvalue_update_self (bs : List CreditBalance) (u : Nat) (v : Int) :
    bvalue (saveBalance (getOrCreateBalance bs u).2 ⟨u, v⟩) u = v := by
  have h1 := bfind_getOrCreate_self bs u
  have h2 : (bfind (getOrCreateBalance bs u).2 u).isSome := by
    rw [h1]; rfl
  unfold bvalue
  rw [bfind_save_self _ _ _ h2]

/-- The `get_or_create`-then-`save` pattern leaves other users' committed
balance values unchanged. -/
theorem bvalue_update_other (bs : List CreditBalance) (u u' : Nat) (v : Int)
    (h : u' ≠ u) :
    bvalue (saveBalance (getOrCreateBalance bs u).2 ⟨u, v⟩) u' = bvalue bs u' := by
  unfold bvalue
  rw [bfind_save_other _ _ _ _ h, bfind_getOrCreate_other _ _ _ h]

/-- `get_or_create` alone preserves every user's committed balance value. -/
theorem bvalue_getOrCreate (bs : List CreditBalance) (u u' : Nat) :
    bvalue (getOrCreateBalance bs u).2 u' = bvalue bs u' := by
  by_cases h : u' = u
  · subst h
    unfold bvalue
    rw [bfind_getOrCreate_self]
    exact getOrCreate_fst_balance bs u'
  · unfold bvalue
    rw [bfind_getOrCreate_other _ _ _ h]

/-! ## Log-sum lemmas -/

/-- Appending one purchase row adds its amount to its owner's sum and
nothing to anyone else's. -/
theorem purchasedSum_append (ps : List CreditPurchase) (r : CreditPurchase)
    (u : Nat) :
    purchasedSum (ps ++ [r]) u
      = purchasedSum ps u + (if r.user = u then r.amount else 0) := by
  by_cases h : r.user = u <;>
    simp [purchasedSum, List.filter_append, h]

/-- Appending one usage row adds its amount to its owner's sum and nothing
to anyone else's. -/
theorem usedSum_append (us : List CreditUsage) (r : CreditUsage) (u : Nat) :
    usedSum (us ++ [r]) u
      = usedSum us u + (if r.user = u then r.amount else 0) := by
  by_cases h : r.user = u <;>
    simp [usedSum, List.filter_append, h]

/-! ## Effect lemmas for the ledger operations -/

/-- `purchase_credit` appends exactly one purchase row. -/
theorem purchase_credit_purchases (s : LedgerState) (u : Nat) (a : Int) (n : Nat) :
    (purchase_credit s u a n).purchases
      = s.purchases ++ [CreditPurchase.mk u a n] := rfl

/-- `purchase_credit` creates no usage rows. -/
theorem purchase_credit_usages (s : LedgerState) (u : Nat) (a : Int) (n : Nat) :
    (purchase_credit s u a n).usages = s.usages := rfl

/-- `purchase_credit` does not touch the post table. -/
theorem purchase_credit_posts (s : LedgerState) (u : Nat) (a : Int) (n : Nat) :
    (purchase_credit s u a n).posts = s.posts := rfl

/-- `purchase_credit` adds the posted amount to the user's cached
balance. -/
theorem purchase_credit_balance_self (s : LedgerState) (u : Nat) (a : Int)
    (n : Nat) : balanceOf (purchase_credit s u a n) u = balanceOf s u + a := by
  show bvalue (saveBalance (getOrCreateBalance s.balances u).2
      ⟨u, (getOrCreateBalance s.balances u).1.balance + a⟩) u = bvalue s.balances u + a
  rw [bvalue_update_self, getOrCreate_fst_balance]

/-- `purchase_credit` leaves other users' cached balances unchanged. -/
theorem purchase_credit_balance_other (s : LedgerState) (u u' : Nat) (a : Int)
    (n : Nat) (h : u' ≠ u) :
    balanceOf (purchase_credit s u a n) u' = balanceOf s u' := by
  show bvalue (saveBalance (getOrCreateBalance s.balances u).2
      ⟨u, (getOrCreateBalance s.balances u).1.balance + a⟩) u' = bvalue s.balances u'
  rw [bvalue_update_other _ _ _ _ h]

/-- The row read by `use_credit`'s `get_or_create` carries the user's
committed balance. -/
theorem use_credit_read (s : LedgerState) (u : Nat) :
    (getOrCreateBalance s.balances u).1.balance = balanceOf s u :=
  getOrCreate_fst_balance s.balances u

/-- Effects of a successful `use_credit` (the read balance covers the
amount): success is reported, no purchase or post changes, exactly one
usage row is appended, the user's cached balance drops by the amount, and
other balances are untouched. -/
theorem use_credit_success (s : LedgerState) (u : Nat) (a : Int) (n : Nat)
    (h : a ≤ balanceOf s u) :
    (use_credit s u a n).2 = true ∧
    (use_credit s u a n).1.purchases = s.purchases ∧
    (use_credit s u a n).1.posts = s.posts ∧
    (use_credit s u a n).1.usages
      = s.usages ++ [CreditUsage.mk u a n "Credit usage" none none] ∧
    balanceOf (use_credit s u a n).1 u = balanceOf s u - a ∧
    (∀ u', u' ≠ u → balanceOf (use_credit s u a n).1 u' = balanceOf s u') := by
  have hr : a ≤ (getOrCreateBalance s.balances u).1.balance := by
    rw [use_credit_read]; exact h
  unfold use_credit
  rw [if_pos hr]
  refine ⟨rfl, rfl, rfl, rfl, ?_, ?_⟩
  · show bvalue (saveBalance (getOrCreateBalance s.balances u).2
        ⟨u, (getOrCreateBalance s.balances u).1.balance - a⟩) u = bvalue s.balances u - a
    rw [bvalue_update_self, getOrCreate_fst_balance]
  · intro u' hu'
    show bvalue (saveBalance (getOrCreateBalance s.balances u).2
        ⟨u, (getOrCreateBalance s.balances u).1.balance - a⟩) u' = bvalue s.balances u'
    rw [bvalue_update_other _ _ _ _ hu']

/-- Effects of a failed `use_credit` (the read balance is below the
amount): failure is reported, the logs are untouched, and every user's
cached balance value is unchanged (the transaction still commits the
balance row `get_or_create` may have inserted, with the default value
`0`). -/
theorem use_credit_failure (s : LedgerState) (u : Nat) (a : Int) (n : Nat)
    (h : balanceOf s u < a) :
    (use_credit s u a n).2 = false ∧
    (use_credit s u a n).1.purchases = s.purchases ∧
    (use_credit s u a n).1.posts = s.posts ∧
    (use_credit s u a n).1.usages = s.usages ∧
    (∀ u', balanceOf (use_credit s u a n).1 u' = balanceOf s u') := by
  have hr : ¬ a ≤ (getOrCreateBalance s.balances u).1.balance := by
    rw [use_credit_read]; exact not_le.mpr h
  unfold use_credit
  rw [if_neg hr]
  refine ⟨rfl, rfl, rfl, rfl, ?_⟩
  intro u'
  show bvalue (getOrCreateBalance s.balances u).2 u' = bvalue s.balances u'
  exact bvalue_getOrCreate s.balances u u'

/-! ## Preservation of the ledger invariant -/

/-- `purchase_credit` preserves the ledger invariant. -/
theorem purchase_credit_consistent (s : LedgerState) (u : Nat) (a : Int)
    (n : Nat) (h : consistent s) : consistent (purchase_credit s u a n) := by
  intro u'
  have hp : userPurchased (purchase_credit s u a n) u'
      = userPurchased s u' + (if u = u' then a else 0) := by
    unfold userPurchased
    rw [purchase_credit_purchases, purchasedSum_append]
  have hu : userUsed (purchase_credit s u a n) u' = userUsed s u' := rfl
  by_cases hcase : u' = u
  · subst hcase
    rw [purchase_credit_balance_self, hp, hu, h u', if_pos rfl]
    ring
  · rw [purchase_credit_balance_other _ _ _ _ _ hcase, hp, hu, h u',
      if_neg (Ne.symm hcase)]
    ring

/-- `use_credit` preserves the ledger invariant in both branches. -/
theorem use_credit_consistent (s : LedgerState) (u : Nat) (a : Int)
    (n : Nat) (h : consistent s) : consistent ((use_credit s u a n).1) := by
  by_cases hc : a ≤ balanceOf s u
  · obtain ⟨_, hpur, _, hus, hbal, hother⟩ := use_credit_success s u a n hc
    intro u'
    have hp : userPurchased (use_credit s u a n).1 u' = userPurchased s u' := by
      unfold userPurchased; rw [hpur]
    have hu : userUsed (use_credit s u a n).1 u'
        = userUsed s u' + (if u = u' then a else 0) := by
      unfold userUsed
      rw [hus, usedSum_append]
    by_cases hcase : u' = u
    · subst hcase
      rw [hbal, hp, hu, h u', if_pos rfl]
      ring
    · rw [hother u' hcase, hp, hu, h u', if_neg (Ne.symm hcase)]
      ring
  · obtain ⟨_, hpur, _, hus, hbal⟩ := use_credit_failure s u a n (not_le.mp hc)
    intro u'
    have hp : userPurchased (use_credit s u a n).1 u' = userPurchased s u' := by
      unfold userPurchased; rw [hpur]
    have hu : userUsed (use_credit s u a n).1 u' = userUsed s u' := by
      unfold userUsed; rw [hus]
    rw [hbal u', hp, hu, h u']

/-- C1: starting from any consistent committed state, every state reached
by a sequence of Purchase (`purchase_credit`) and Spend (`use_credit`)
operations keeps each user's cached balance equal to the sum of that
user's purchase-log amounts minus the sum of their usage-log amounts; in
particular each single Purchase and each single Spend (successful or not)
preserves the equality. -/
theorem C1_balance_matches_logs (s : LedgerState) (ops : List LedgerOp)
    (h : consistent s) : consistent (runOps s ops) := by
  induction ops generalizing s with
  | nil => exact h
  | cons op ops ih =>
    cases op with
    | purchase u a n => exact ih _ (purchase_credit_consistent s u a n h)
    | spend u a n => exact ih _ (use_credit_consistent s u a n h)

/-- Witness for C1 at a concrete run: from the empty (consistent)
database, a purchase of `50.00` followed by a spend of `1.00` for user 1
keeps the ledger consistent. -/
theorem C1_balance_matches_logs_witness :
    consistent (runOps emptyState
      [LedgerOp.purchase 1 5000 0, LedgerOp.spend 1 100 1]) :=
  C1_balance_matches_logs emptyState
    [LedgerOp.purchase 1 5000 0, LedgerOp.spend 1 100 1] (fun _ => rfl)

/-- C2: from any state in which the user's cached balance is nonnegative,
any committed `use_credit` call — successful or failed, for any amount —
leaves the user's cached balance nonnegative, because the decrement only
commits when the read balance is at least the requested amount. -/
theorem C2_balance_stays_nonneg (s : LedgerState) (u : Nat) (a : Int)
    (n : Nat) (h : 0 ≤ balanceOf s u) :
    0 ≤ balanceOf (use_credit s u a n).1 u := by
  by_cases hc : a ≤ balanceOf s u
  · rw [(use_credit_success s u a n hc).2.2.2.2.1]
    exact sub_nonneg.mpr hc
  · rw [(use_credit_failure s u a n (not_le.mp hc)).2.2.2.2 u]
    exact h

/-- Witness for C2: user 1 holds `1.00`; after spending `1.00` the cached
balance is still nonnegative. -/
theorem C2_balance_stays_nonneg_witness :
    0 ≤ balanceOf (use_credit oneCreditState 1 100 1).1 1 :=
  C2_balance_stays_nonneg oneCreditState 1 100 1 (by decide)

/-- C4: when the requested amount strictly exceeds the user's cached
balance, `use_credit` reports failure (`InsufficientCredit`), creates no
`CreditUsage` row, creates no purchase row, and leaves the user's cached
balance value unchanged. -/
theorem C4_insufficient_no_mutation (s : LedgerState) (u : Nat) (a : Int)
    (n : Nat) (h : balanceOf s u < a) :
    (use_credit s u a n).2 = false ∧
    (use_credit s u a n).1.usages = s.usages ∧
    (use_credit s u a n).1.purchases = s.purchases ∧
    balanceOf (use_credit s u a n).1 u = balanceOf s u := by
  obtain ⟨h1, h2, h3, h4, h5⟩ := use_credit_failure s u a n h
  exact ⟨h1, h4, h2, h5 u⟩

/-- Witness for C4: with balance `0.00`, spending `1.00` fails, creates no
usage row and leaves the balance at `0.00`. -/
theorem C4_insufficient_no_mutation_witness :
    (use_credit emptyState 1 100 0).2 = false ∧
    (use_credit emptyState 1 100 0).1.usages = emptyState.usages ∧
    (use_credit emptyState 1 100 0).1.purchases = emptyState.purchases ∧
    balanceOf (use_credit emptyState 1 100 0).1 1 = balanceOf emptyState 1 :=
  C4_insufficient_no_mutation emptyState 1 100 0 (by decide)

/-- C5: when the user's cached balance covers the requested amount,
`use_credits` (the Spend with description and generic reference of
`helpers1.py`) succeeds, decrements the cached balance by exactly the
amount, appends exactly one `CreditUsage` row carrying the given
description and reference, creates no purchase row, and leaves other
users' balances untouched. -/
theorem C5_sufficient_spend (s : LedgerState) (u : Nat) (a : Int)
    (d : String) (ck oid : Nat) (n : Nat) (h : a ≤ balanceOf s u) :
    (use_credits s u a d ck oid n).2 = true ∧
    (use_credits s u a d ck oid n).1.usages
      = s.usages ++ [CreditUsage.mk u a n d (some ck) (some oid)] ∧
    (use_credits s u a d ck oid n).1.purchases = s.purchases ∧
    balanceOf (use_credits s u a d ck oid n).1 u = balanceOf s u - a ∧
    (∀ u', u' ≠ u → balanceOf (use_credits s u a d ck oid n).1 u' = balanceOf s u') := by
  have hr : a ≤ (getOrCreateBalance s.balances u).1.balance := by
    rw [use_credit_read]; exact h
  have hc : (check_credit_balance s.balances u a).1 = true := decide_eq_true hr
  have hc2 : (check_credit_balance s.balances u a).2
      = (getOrCreateBalance s.balances u).2 := rfl
  have key : use_credits s u a d ck oid n
      = ({ s with
            balances := saveBalance (getOrCreateBalance s.balances u).2
              ⟨u, (getOrCreateBalance s.balances u).1.balance - a⟩,
            usages := s.usages
              ++ [CreditUsage.mk u a n d (some ck) (some oid)] }, true) := by
    simp only [use_credits, hc, if_true, hc2, bfind_getOrCreate_self]
  refine ⟨by rw [key], by rw [key], by rw [key], ?_, ?_⟩
  · rw [key]
    show bvalue (saveBalance (getOrCreateBalance s.balances u).2
        ⟨u, (getOrCreateBalance s.balances u).1.balance - a⟩) u
      = bvalue s.balances u - a
    rw [bvalue_update_self, getOrCreate_fst_balance]
  · intro u' hu'
    rw [key]
    show bvalue (saveBalance (getOrCreateBalance s.balances u).2
        ⟨u, (getOrCreateBalance s.balances u).1.balance - a⟩) u'
      = bvalue s.balances u'
    rw [bvalue_update_other _ _ _ _ hu']

/-- Witness for C5: with balance `50.00`, spending `1.00` with description
`"Boost post 7"` and reference `(content_type 9, object 7)` succeeds,
leaves `49.00`, and appends exactly that usage row. -/
theorem C5_sufficient_spend_witness :
    (use_credits fiftyCreditState 1 100 "Boost post 7" 9 7 3).2 = true ∧
    (use_credits fiftyCreditState 1 100 "Boost post 7" 9 7 3).1.usages
      = fiftyCreditState.usages
        ++ [CreditUsage.mk 1 100 3 "Boost post 7" (some 9) (some 7)] ∧
    (use_credits fiftyCreditState 1 100 "Boost post 7" 9 7 3).1.purchases
      = fiftyCreditState.purchases ∧
    balanceOf (use_credits fiftyCreditState 1 100 "Boost post 7" 9 7 3).1 1
      = balanceOf fiftyCreditState 1 - 100 ∧
    (∀ u', u' ≠ 1 →
      balanceOf (use_credits fiftyCreditState 1 100 "Boost post 7" 9 7 3).1 u'
        = balanceOf fiftyCreditState u') :=
  C5_sufficient_spend fiftyCreditState 1 100 "Boost post 7" 9 7 3 (by decide)

/-- C6 counterexample: `purchase_credit` performs no amount validation.
Purchasing `-5.00` from the empty database does not fail: it creates a
purchase row and changes the balance (to `-5.00`), contradicting the
claim that every mutating operation requires `amount > 0` and that
`Purchase(user, -5.00)` fails with `InvalidAmount`, creates no rows and
leaves the balance unchanged. -/
theorem C6_counterexample :
    ¬ ((purchase_credit emptyState 1 (-500) 0).purchases
        = emptyState.purchases ∧
      balanceOf (purchase_credit emptyState 1 (-500) 0) 1
        = balanceOf emptyState 1) := by
  decide

/-- C6 amended: neither `purchase_credit` nor `use_credit` validates the
amount.  A purchase of a non-positive amount still appends a purchase row
with that amount and adds it to the cached balance; a spend of a
non-positive amount still succeeds whenever the cached balance is
nonnegative (the guard `balance >= amount` then holds), subtracts the
non-positive amount, and appends a usage row with it. -/
theorem C6_no_amount_validation (s : LedgerState) (u : Nat) (a : Int)
    (n : Nat) (h : a ≤ 0) :
    (purchase_credit s u a n).purchases
      = s.purchases ++ [CreditPurchase.mk u a n] ∧
    balanceOf (purchase_credit s u a n) u = balanceOf s u + a ∧
    (0 ≤ balanceOf s u →
      (use_credit s u a n).2 = true ∧
      balanceOf (use_credit s u a n).1 u = balanceOf s u - a ∧
      (use_credit s u a n).1.usages
        = s.usages ++ [CreditUsage.mk u a n "Credit usage" none none]) := by
  refine ⟨purchase_credit_purchases s u a n,
    purchase_credit_balance_self s u a n, ?_⟩
  intro hb
  have hc : a ≤ balanceOf s u := le_trans h hb
  obtain ⟨h1, _, _, h4, h5, _⟩ := use_credit_success s u a n hc
  exact ⟨h1, h5, h4⟩

/-- Witness for C6 as amended: purchasing `-5.00` on the empty database
appends the `-5.00` purchase row, drives the balance to `-5.00`, and
spending `-5.00` "succeeds" as well. -/
theorem C6_no_amount_validation_witness :
    (purchase_credit emptyState 1 (-500) 0).purchases
      = emptyState.purchases ++ [CreditPurchase.mk 1 (-500) 0] ∧
    balanceOf (purchase_credit emptyState 1 (-500) 0) 1
      = balanceOf emptyState 1 + (-500) ∧
    (0 ≤ balanceOf emptyState 1 →
      (use_credit emptyState 1 (-500) 0).2 = true ∧
      balanceOf (use_credit emptyState 1 (-500) 0).1 1
        = balanceOf emptyState 1 - (-500) ∧
      (use_credit emptyState 1 (-500) 0).1.usages
        = emptyState.usages
          ++ [CreditUsage.mk 1 (-500) 0 "Credit usage" none none]) :=
  C6_no_amount_validation emptyState 1 (-500) 0 (by decide)

/-- C3, evaluated on the code as written: from the consistent state in
which user 1 holds `1.00`, two concurrent `use_credit(1.00)` transactions
that both read the balance before either commits — a schedule the code
permits, since `use_credit` takes no row lock and relies only on
`transaction.atomic` — BOTH succeed, two `1.00` usage rows are appended,
the final cached balance is `0.00` (each writer computed `1.00 - 1.00`
from its stale read), and the ledger invariant is broken (log sums say
`-1.00`).  This contradicts the claim that at most one of the two calls
succeeds. -/
theorem C3_double_spend_race :
    consistent oneCreditState ∧
    (use_credit_racy_pair oneCreditState 1 100 100 1 2).2.1 = true ∧
    (use_credit_racy_pair oneCreditState 1 100 100 1 2).2.2 = true ∧
    balanceOf (use_credit_racy_pair oneCreditState 1 100 100 1 2).1 1 = 0 ∧
    (use_credit_racy_pair oneCreditState 1 100 100 1 2).1.usages.length = 2 ∧
    ¬ consistent (use_credit_racy_pair oneCreditState 1 100 100 1 2).1 := by
  have h0 : oneCreditState = purchase_credit emptyState 1 100 0 := by decide
  refine ⟨?_, by decide, by decide, by decide, by decide, ?_⟩
  · rw [h0]
    exact purchase_credit_consistent emptyState 1 100 0 (fun _ => rfl)
  · intro hcon
    exact absurd (hcon 1) (by decide)

/-- C8 counterexample: `credit_summary` is not write-free.  For a user
with no balance row yet (the empty database), the `get_or_create` inside
`credit_summary` inserts a balance row, so the committed state after the
call differs from the state before it, contradicting the claim that after
a GetSummary call the stores are exactly as before for every stored
state. -/
theorem C8_counterexample :
    (credit_summary emptyState 1).2 ≠ emptyState := by decide

/-- C8 amended: `credit_summary` never writes to the purchase, usage or
post tables, and when the user already has a balance row it performs no
write at all (the state is exactly as before); the one exception is a
user with no balance row yet, for whom it lazily inserts the row with the
default balance `0`. -/
theorem C8_summary_reader_frame (s : LedgerState) (u : Nat) :
    (credit_summary s u).2.purchases = s.purchases ∧
    (credit_summary s u).2.usages = s.usages ∧
    (credit_summary s u).2.posts = s.posts ∧
    ((bfind s.balances u).isSome → (credit_summary s u).2 = s) ∧
    (bfind s.balances u = none →
      (credit_summary s u).2.balances = s.balances ++ [⟨u, 0⟩]) := by
  refine ⟨rfl, rfl, rfl, ?_, ?_⟩
  · intro h
    show { s with balances := (getOrCreateBalance s.balances u).2 } = s
    cases hb : bfind s.balances u with
    | none => rw [hb] at h; simp at h
    | some b =>
      have hg : (getOrCreateBalance s.balances u).2 = s.balances := by
        unfold getOrCreateBalance; rw [hb]
      rw [hg]
  · intro h
    show (getOrCreateBalance s.balances u).2 = s.balances ++ [⟨u, 0⟩]
    unfold getOrCreateBalance; rw [h]

/-- Witness for C8 as amended: with user 1's balance row present, a
summary call leaves the state untouched; on the empty database a summary
call for user 2 inserts exactly the default row. -/
theorem C8_summary_reader_frame_witness :
    (credit_summary oneCreditState 1).2 = oneCreditState ∧
    (credit_summary emptyState 2).2.balances
      = emptyState.balances ++ [⟨2, 0⟩] :=
  ⟨(C8_summary_reader_frame oneCreditState 1).2.2.2.1 (by decide),
   (C8_summary_reader_frame emptyState 2).2.2.2.2 (by decide)⟩

/-- C9: the Spend that carries a reference (`use_credits` of
`helpers1.py`) never dereferences or mutates the referenced entity.  The
post table (the store of referenceable entities) is returned unchanged,
and every ledger output — the success flag and the resulting purchase,
usage and balance tables — is the same whatever the contents of the post
table: the reference `(ck, oid)` is only stored in the created usage
row. -/
theorem C9_reference_not_dereferenced (s : LedgerState) (u : Nat) (a : Int)
    (d : String) (ck oid : Nat) (n : Nat) (ps : List Post) :
    (use_credits s u a d ck oid n).1.posts = s.posts ∧
    (use_credits { s with posts := ps } u a d ck oid n).2
      = (use_credits s u a d ck oid n).2 ∧
    (use_credits { s with posts := ps } u a d ck oid n).1.balances
      = (use_credits s u a d ck oid n).1.balances ∧
    (use_credits { s with posts := ps } u a d ck oid n).1.usages
      = (use_credits s u a d ck oid n).1.usages ∧
    (use_credits { s with posts := ps } u a d ck oid n).1.purchases
      = (use_credits s u a d ck oid n).1.purchases := by
  by_cases hC : a ≤ (getOrCreateBalance s.balances u).1.balance
  · have hc : (check_credit_balance s.balances u a).1 = true :=
      decide_eq_true hC
    have hc2 : (check_credit_balance s.balances u a).2
        = (getOrCreateBalance s.balances u).2 := rfl
    have key1 : use_credits { s with posts := ps } u a d ck oid n
        = ({ s with
              posts := ps,
              balances := saveBalance (getOrCreateBalance s.balances u).2
                ⟨u, (getOrCreateBalance s.balances u).1.balance - a⟩,
              usages := s.usages
                ++ [CreditUsage.mk u a n d (some ck) (some oid)] }, true) := by
      simp only [use_credits, hc, hc2, if_true, bfind_getOrCreate_self]
    have key2 : use_credits s u a d ck oid n
        = ({ s with
              balances := saveBalance (getOrCreateBalance s.balances u).2
                ⟨u, (getOrCreateBalance s.balances u).1.balance - a⟩,
              usages := s.usages
                ++ [CreditUsage.mk u a n d (some ck) (some oid)] }, true) := by
      simp only [use_credits, hc, hc2, if_true, bfind_getOrCreate_self]
    rw [key1, key2]
    exact ⟨rfl, rfl, rfl, rfl, rfl⟩
  · have hc : (check_credit_balance s.balances u a).1 = false :=
      decide_eq_false hC
    have hc2 : (check_credit_balance s.balances u a).2
        = (getOrCreateBalance s.balances u).2 := rfl
    have key1 : use_credits { s with posts := ps } u a d ck oid n
        = ({ s with
              posts := ps,
              balances := (getOrCreateBalance s.balances u).2 }, false) := by
      simp only [use_credits, hc, hc2, Bool.false_eq_true, if_false]
    have key2 : use_credits s u a d ck oid n
        = ({ s with balances := (getOrCreateBalance s.balances u).2 }, false) := by
      simp only [use_credits, hc, hc2, Bool.false_eq_true, if_false]
    rw [key1, key2]
    exact ⟨rfl, rfl, rfl, rfl, rfl⟩

/-- C10: `boost_post` has no guard on the post's current `is_boosted`
value.  For any post of the user's that is already boosted, a further
`boost_post` call with balance at least `BOOST_COST` succeeds again: it
deducts `BOOST_COST` from the cached balance, appends one more
`CreditUsage` row for the boost, creates no purchase row, and every post
with that id still has `is_boosted = true` afterwards. -/
theorem C10_boost_not_guarded (s : LedgerState) (u pid n : Nat) (p : Post)
    (hp : s.posts.find? (fun q => q.id == pid && q.user == u) = some p)
    (hb : p.is_boosted = true)
    (hbal : BOOST_COST ≤ balanceOf s u) :
    ∃ s', boost_post s u pid n = some (s', true) ∧
      balanceOf s' u = balanceOf s u - BOOST_COST ∧
      s'.usages = s.usages ++ [CreditUsage.mk u BOOST_COST n
        ("Boost post (ID: " ++ toString pid ++ ")") none none] ∧
      s'.purchases = s.purchases ∧
      (∀ q ∈ s'.posts, q.id = pid → q.is_boosted = true) := by
  have hpred := List.find?_some hp
  have hpid : p.id = pid := by
    simp only [Bool.and_eq_true, beq_iff_eq] at hpred
    exact hpred.1
  have hr : BOOST_COST ≤ (getOrCreateBalance s.balances u).1.balance := by
    rw [use_credit_read]; exact hbal
  have key : boost_post s u pid n
      = some ({ s with
          balances := saveBalance (getOrCreateBalance s.balances u).2
            ⟨u, (getOrCreateBalance s.balances u).1.balance - BOOST_COST⟩,
          posts := s.posts.map (fun q =>
            if q.id = p.id then { q with is_boosted := true } else q),
          usages := s.usages ++ [CreditUsage.mk u BOOST_COST n
            ("Boost post (ID: " ++ toString p.id ++ ")") none none] }, true) := by
    simp only [boost_post, hp, hr, if_true]
  refine ⟨{ s with
      balances := saveBalance (getOrCreateBalance s.balances u).2
        ⟨u, (getOrCreateBalance s.balances u).1.balance - BOOST_COST⟩,
      posts := s.posts.map (fun q =>
        if q.id = p.id then { q with is_boosted := true } else q),
      usages := s.usages ++ [CreditUsage.mk u BOOST_COST n
        ("Boost post (ID: " ++ toString p.id ++ ")") none none] },
    by rw [key], ?_, by rw [hpid], rfl, ?_⟩
  · show bvalue (saveBalance (getOrCreateBalance s.balances u).2
        ⟨u, (getOrCreateBalance s.balances u).1.balance - BOOST_COST⟩) u
      = bvalue s.balances u - BOOST_COST
    rw [bvalue_update_self, getOrCreate_fst_balance]
  · intro q hq hqid
    rcases List.mem_map.mp hq with ⟨orig, horig, hqeq⟩
    by_cases ho : orig.id = p.id
    · rw [← hqeq, if_pos ho]
    · rw [← hqeq, if_neg ho] at hqid ⊢
      exact absurd (hqid.trans hpid.symm) ho

/-- Witness for C10: user 1 holds `50.00` and owns post 7, already
boosted; boosting it again succeeds, leaves `49.00`, appends one more
usage row, and the post is still boosted. -/
theorem C10_boost_not_guarded_witness :
    ∃ s', boost_post fiftyCreditState 1 7 4 = some (s', true) ∧
      balanceOf s' 1 = balanceOf fiftyCreditState 1 - BOOST_COST ∧
      s'.usages = fiftyCreditState.usages ++ [CreditUsage.mk 1 BOOST_COST 4
        ("Boost post (ID: " ++ toString 7 ++ ")") none none] ∧
      s'.purchases = fiftyCreditState.purchases ∧
      (∀ q ∈ s'.posts, q.id = 7 → q.is_boosted = true) :=
  C10_boost_not_guarded fiftyCreditState 1 7 4 ⟨7, 1, "hello", true, 0⟩
    (by decide) (by decide) (by decide)

/-! ## Ordering lemmas for the summary's recent lists -/

/-- `insertDesc` inserts: the result is a permutation of consing. -/
theorem insertDesc_perm {α : Type} (key : α → Nat) (x : α) (l : List α) :
    (insertDesc key x l).Perm (x :: l) := by
  induction l with
  | nil => exact List.Perm.refl _
  | cons y ys ih =>
    unfold insertDesc
    by_cases h : key y ≤ key x
    · rw [if_pos h]
    · rw [if_neg h]
      exact (ih.cons y).trans (List.Perm.swap x y ys)

/-- `insertDesc` preserves descending order. -/
theorem insertDesc_pairwise {α : Type} (key : α → Nat) (x : α) (l : List α)
    (h : l.Pairwise (fun a b => key b ≤ key a)) :
    (insertDesc key x l).Pairwise (fun a b => key b ≤ key a) := by
  induction l with
  | nil => simp [insertDesc]
  | cons y ys ih =>
    rw [List.pairwise_cons] at h
    unfold insertDesc
    by_cases hxy : key y ≤ key x
    · rw [if_pos hxy]
      refine List.Pairwise.cons ?_ (List.Pairwise.cons h.1 h.2)
      intro b hb
      rcases List.mem_cons.mp hb with hb | hb
      · rw [hb]; exact hxy
      · exact le_trans (h.1 b hb) hxy
    · rw [if_neg hxy]
      refine List.Pairwise.cons ?_ (ih h.2)
      intro b hb
      rcases List.mem_cons.mp ((insertDesc_perm key x ys).mem_iff.mp hb) with hb' | hb'
      · rw [hb']; exact le_of_not_le hxy
      · exact h.1 b hb'

/-- `sortDesc` permutes its input. -/
theorem sortDesc_perm {α : Type} (key : α → Nat) (l : List α) :
    (sortDesc key l).Perm l := by
  induction l with
  | nil => exact List.Perm.refl _
  | cons x xs ih =>
    unfold sortDesc
    exact (insertDesc_perm key x (sortDesc key xs)).trans (ih.cons x)

/-- `sortDesc` sorts into descending key order. -/
theorem sortDesc_pairwise {α : Type} (key : α → Nat) (l : List α) :
    (sortDesc key l).Pairwise (fun a b => key b ≤ key a) := by
  induction l with
  | nil => simp [sortDesc]
  | cons x xs ih => exact insertDesc_pairwise key x _ ih

/-- Properties of `order_by('-date')[:5]`: the recent list is in
descending key order, has at most five entries, draws its entries from
the underlying rows, and every row left out has a key no larger than
every row kept. -/
theorem recentTake_props {α : Type} (key : α → Nat) (l : List α) :
    ((sortDesc key l).take 5).Pairwise (fun a b => key b ≤ key a) ∧
    ((sortDesc key l).take 5).length ≤ 5 ∧
    (∀ p ∈ (sortDesc key l).take 5, p ∈ l) ∧
    (∀ p ∈ (sortDesc key l).take 5, ∀ q ∈ l,
      q ∉ (sortDesc key l).take 5 → key q ≤ key p) := by
  refine ⟨List.Pairwise.sublist (List.take_sublist 5 _) (sortDesc_pairwise key l),
    List.length_take_le 5 _, ?_, ?_⟩
  · intro p hp
    exact (sortDesc_perm key l).mem_iff.mp ((List.take_sublist 5 _).subset hp)
  · intro p hp q hq hq'
    have hsort := sortDesc_pairwise key l
    have hqmem : q ∈ sortDesc key l := (sortDesc_perm key l).mem_iff.mpr hq
    have hsplit : sortDesc key l
        = (sortDesc key l).take 5 ++ (sortDesc key l).drop 5 :=
      (List.take_append_drop 5 _).symm
    rw [hsplit] at hsort hqmem
    rcases List.mem_append.mp hqmem with h | h
    · exact absurd h hq'
    · exact (List.pairwise_append.mp hsort).2.2 p hp q h

/-- C7: for any user, `credit_summary` reports `total_purchased` equal to
the sum of the user's purchase amounts and `total_used` equal to the sum
of the user's usage amounts; these totals are the same for any two states
whose log tables are permutations of each other (insertion order is
irrelevant); and each recent list is ordered by date descending, holds at
most five rows, draws only from the user's own log rows, and omits no row
dated later than a listed one. -/
theorem C7_summary_totals_and_recent (s s' : LedgerState) (u : Nat)
    (hp : s.purchases.Perm s'.purchases) (hu : s.usages.Perm s'.usages) :
    (credit_summary s u).1.total_purchased = userPurchased s u ∧
    (credit_summary s u).1.total_used = userUsed s u ∧
    (credit_summary s' u).1.total_purchased
      = (credit_summary s u).1.total_purchased ∧
    (credit_summary s' u).1.total_used = (credit_summary s u).1.total_used ∧
    (credit_summary s u).1.recent_purchases.Pairwise
      (fun a b => b.date ≤ a.date) ∧
    (credit_summary s u).1.recent_purchases.length ≤ 5 ∧
    (∀ p ∈ (credit_summary s u).1.recent_purchases,
      p ∈ s.purchases ∧ p.user = u) ∧
    (∀ p ∈ (credit_summary s u).1.recent_purchases, ∀ q ∈ s.purchases,
      q.user = u → q ∉ (credit_summary s u).1.recent_purchases →
        q.date ≤ p.date) ∧
    (credit_summary s u).1.recent_usages.Pairwise
      (fun a b => b.date ≤ a.date) ∧
    (credit_summary s u).1.recent_usages.length ≤ 5 ∧
    (∀ r ∈ (credit_summary s u).1.recent_usages,
      r ∈ s.usages ∧ r.user = u) ∧
    (∀ r ∈ (credit_summary s u).1.recent_usages, ∀ q ∈ s.usages,
      q.user = u → q ∉ (credit_summary s u).1.recent_usages →
        q.date ≤ r.date) := by
  have ep : (credit_summary s u).1.recent_purchases
      = (sortDesc (fun p => p.date)
          (s.purchases.filter (fun p => p.user == u))).take 5 := rfl
  have eu : (credit_summary s u).1.recent_usages
      = (sortDesc (fun r => r.date)
          (s.usages.filter (fun r => r.user == u))).take 5 := rfl
  obtain ⟨pw1, ln1, mem1, lat1⟩ := recentTake_props (fun p => p.date)
    (s.purchases.filter (fun p => p.user == u))
  obtain ⟨pw2, ln2, mem2, lat2⟩ := recentTake_props (fun r => r.date)
    (s.usages.filter (fun r => r.user == u))
  refine ⟨rfl, rfl, ?_, ?_, ?_, ?_, ?_, ?_, ?_, ?_, ?_, ?_⟩
  · show purchasedSum s'.purchases u = purchasedSum s.purchases u
    unfold purchasedSum
    exact (((hp.filter _).map _).sum_eq).symm
  · show usedSum s'.usages u = usedSum s.usages u
    unfold usedSum
    exact (((hu.filter _).map _).sum_eq).symm
  · rw [ep]; exact pw1
  · rw [ep]; exact ln1
  · intro p hpmem
    rw [ep] at hpmem
    have hm := mem1 p hpmem
    rw [List.mem_filter] at hm
    exact ⟨hm.1, by simpa using hm.2⟩
  · intro p hpmem q hq hqu hqnot
    rw [ep] at hpmem hqnot
    exact lat1 p hpmem q (List.mem_filter.mpr ⟨hq, by simp [hqu]⟩) hqnot
  · rw [eu]; exact pw2
  · rw [eu]; exact ln2
  · intro r hrmem
    rw [eu] at hrmem
    have hm := mem2 r hrmem
    rw [List.mem_filter] at hm
    exact ⟨hm.1, by simpa using hm.2⟩
  · intro r hrmem q hq hqu hqnot
    rw [eu] at hrmem hqnot
    exact lat2 r hrmem q (List.mem_filter.mpr ⟨hq, by simp [hqu]⟩) hqnot

/-- Two purchases and two usages for user 1, in one insertion order. -/
def permStateA : LedgerState :=
  ⟨[⟨1, 100, 0⟩, ⟨1, 200, 1⟩],
   [⟨1, 50, 2, "x", none, none⟩, ⟨1, 25, 3, "y", none, none⟩],
   [⟨1, 225⟩], []⟩

/-- The same rows inserted in the opposite order. -/
def permStateB : LedgerState :=
  ⟨[⟨1, 200, 1⟩, ⟨1, 100, 0⟩],
   [⟨1, 25, 3, "y", none, none⟩, ⟨1, 50, 2, "x", none, none⟩],
   [⟨1, 225⟩], []⟩

/-- Witness for C7: two states holding the same rows in opposite
insertion orders report the same totals. -/
theorem C7_summary_totals_and_recent_witness :
    permStateA.purchases.Perm permStateB.purchases ∧
    (credit_summary permStateB 1).1.total_purchased
      = (credit_summary permStateA 1).1.total_purchased ∧
    (credit_summary permStateB 1).1.total_used
      = (credit_summary permStateA 1).1.total_used :=
  ⟨by decide,
   (C7_summary_totals_and_recent permStateA permStateB 1
      (by decide) (by decide)).2.2.1,
   (C7_summary_totals_and_recent permStateA permStateB 1
      (by decide) (by decide)).2.2.2.1⟩
